import Mathlib

/-!
Shallow embedding of the deltafs-nexus bootstrap layer
(`src/src/nexus_setup.cc` and `src/include/deltafs-nexus_api.h`):
the background progress thread, the synchronous lookup adapter,
local and remote topology discovery, address preparation, bootstrap,
teardown, and the routing decision declared by the public header.

Conventions: a `msg_abort` call is modelled as the `none` branch of an
`Option`-valued function (aborting functions never return); Mercury's
opaque `hg_addr_t` handles are modelled as natural numbers; machine `int`
ranks are modelled as `Int`; transport and OS behaviour that the code
only observes (interface scan results, port probing, lookup outcomes)
is supplied through explicit environment records.
-/

/-- Mercury return codes, as used by `nexus_setup.cc`. -/
inductive hg_return where
  | HG_SUCCESS
  | HG_TIMEOUT
  | HG_NOMEM_ERROR
  | HG_INVALID_PARAM
  | HG_OTHER_ERROR
deriving DecidableEq

/-- Error codes of the public API (`deltafs-nexus_api.h`, `nexus_ret_t`). -/
inductive nexus_ret where
  | NX_SUCCESS
  | NX_ERROR
  | NX_NOTFOUND
  | NX_ISLOCAL
  | NX_SRCREP
  | NX_DESTREP
  | NX_INVAL
  | NX_DONE
deriving DecidableEq

/-- Model of the opaque Mercury address handle `hg_addr_t`. -/
abbrev hg_addr_t := Nat

/-- The null Mercury address handle. -/
def HG_ADDR_NULL : hg_addr_t := 0

section EventTraces

/-- Which communicator a collective operation runs over. -/
inductive NxComm where
  | localComm
  | repComm
deriving DecidableEq

/-- Straight-line events of `discover_local_info` / `discover_remote_info`,
in source order.  `visitPeersLoop` stands for the whole address-resolution
loop (the only place resolutions are issued); `setStopFlag` is the write
`bgarg->bgdone = 1`; `joinProgressThread` is the `pthread_join`. -/
inductive DiscEvent where
  | commRankSize (g : NxComm)
  | buildRankreps
  | hgInit
  | hgContextCreate
  | startProgressThread
  | exchangeMetadata (g : NxComm)
  | visitPeersLoop
  | barrier (g : NxComm)
  | setStopFlag
  | joinProgressThread
deriving DecidableEq

/-- Event trace of `discover_local_info` (nexus_setup.cc lines 245-350),
in the order the statements appear in the source. -/
def discover_local_events : List DiscEvent :=
  [DiscEvent.commRankSize NxComm.localComm, DiscEvent.hgInit,
   DiscEvent.hgContextCreate, DiscEvent.startProgressThread,
   DiscEvent.exchangeMetadata NxComm.localComm, DiscEvent.visitPeersLoop,
   DiscEvent.barrier NxComm.localComm, DiscEvent.setStopFlag,
   DiscEvent.joinProgressThread]

/-- Event trace of `discover_remote_info` (nexus_setup.cc lines 357-444),
in the order the statements appear in the source. -/
def discover_remote_events : List DiscEvent :=
  [DiscEvent.commRankSize NxComm.repComm, DiscEvent.buildRankreps,
   DiscEvent.hgInit, DiscEvent.hgContextCreate,
   DiscEvent.startProgressThread, DiscEvent.exchangeMetadata NxComm.repComm,
   DiscEvent.visitPeersLoop, DiscEvent.barrier NxComm.repComm,
   DiscEvent.setStopFlag, DiscEvent.joinProgressThread]

end EventTraces

section RdataBounds

/-- Byte size of the `addr` field of `rdata_t` (`char addr[60]`,
nexus_setup.cc line 353). -/
def rdata_addr_size : Nat := 60

/-- Indices written by `strncpy(dst, src, n)`: strncpy always stores
exactly `n` bytes into `dst` (copied characters, then zero padding). -/
def strncpy_write_indices (n : Nat) : List Nat := List.range n

/-- Indices of `rdat.addr` written while building the representative
record in `discover_remote_info` (nexus_setup.cc lines 399-400):
`strncpy(rdat.addr, hgaddr, sizeof(rdat.addr))` followed by the explicit
terminator store `rdat.addr[60] = 0`. -/
def rdat_addr_write_indices : List Nat :=
  strncpy_write_indices rdata_addr_size ++ [60]

end RdataBounds

section Discovery

/-- Per-process record exchanged among local ranks
(`ldata_t`, nexus_setup.cc lines 238-243). -/
structure ldata where
  pid : Nat
  hgid : Nat
  grank : Int
  lrank : Nat
deriving DecidableEq, Inhabited

/-- Representative record exchanged among representatives
(`rdata_t`, nexus_setup.cc lines 352-355).  The `addr` field is the
URI string carried by the 60-byte character array. -/
structure rdata where
  addr : String
  grank : Int
deriving DecidableEq, Inhabited

/-- Local address string of a peer, as formatted by the snprintf at
nexus_setup.cc lines 319-320: the `na+sm` scheme followed by the
peer's pid and endpoint id. -/
def ldata.addrString (e : ldata) : String :=
  "na+sm://" ++ toString e.pid ++ "/" ++ toString e.hgid

/-- A peer as seen by either discovery loop: its global rank (the key
under which its resolved address is inserted) and the string used for a
network lookup if one is needed. -/
structure peer_t where
  grank : Int
  addrstr : String
deriving DecidableEq, Inhabited

/-- The peer data the local loop derives from an `ldata` entry. -/
def ldata.toPeer (e : ldata) : peer_t :=
  { grank := e.grank, addrstr := e.addrString }

/-- The peer data the remote loop derives from an `rdata` entry
(the exchanged URI is used verbatim as the lookup string). -/
def rdata.toPeer (e : rdata) : peer_t :=
  { grank := e.grank, addrstr := e.addr }

/-- How an address is obtained for one peer: `HG_Addr_self` on the own
endpoint, or `hg_lookup` (the synchronous lookup adapter) on an address
string. -/
inductive AddrSource where
  | selfQuery
  | lookupQuery (s : String)
deriving DecidableEq

/-- Outcomes of the transport calls the discovery loops make:
the result of `HG_Addr_self` and of `hg_lookup` per address string.
`none` models any Mercury return other than `HG_SUCCESS`. -/
structure ResolveEnv where
  HG_Addr_self : Option hg_addr_t
  hg_lookup : String → Option hg_addr_t

/-- Branch choice at nexus_setup.cc lines 322-326 / 419-424: the caller
itself is resolved by a self-address query, every other peer by a
lookup on its address string. -/
def peerSource (self_grank : Int) (p : peer_t) : AddrSource :=
  if p.grank = self_grank then AddrSource.selfQuery
  else AddrSource.lookupQuery p.addrstr

/-- Perform one resolution against the environment. -/
def resolveVia (env : ResolveEnv) : AddrSource → Option hg_addr_t
  | AddrSource.selfQuery => env.HG_Addr_self
  | AddrSource.lookupQuery s => env.hg_lookup s

/-- One insertion into a routing table: the map key used
(`nctx->laddrs[grank] = addr` resp. `nctx->gaddrs[grank] = addr`),
how the address was obtained, and the address inserted. -/
structure RouteInsert where
  key : Int
  src : AddrSource
  addr : hg_addr_t
deriving DecidableEq

/-- The body of either discovery loop over the peers in visiting order:
resolve each peer (self-query for the caller, lookup otherwise); any
resolution that does not return `HG_SUCCESS` aborts the process
(`msg_abort("hg_lookup failed")`, modelled as `none`); otherwise record
the insertion keyed by the peer's global rank. -/
def discoverSteps (env : ResolveEnv) (self_grank : Int) :
    List peer_t → Option (List RouteInsert)
  | [] => some []
  | p :: rest =>
    match resolveVia env (peerSource self_grank p) with
    | none => none
    | some a =>
      match discoverSteps env self_grank rest with
      | none => none
      | some tail =>
        some ({ key := p.grank, src := peerSource self_grank p,
                addr := a } :: tail)

/-- Index sequence of either discovery loop:
`for i in [0, n)`, `eff_i = (rank + i) % n`
(nexus_setup.cc lines 302-303 and 410-411). -/
def visitOrder (rank n : Nat) : List Nat :=
  (List.range n).map (fun i => (rank + i) % n)

/-- The entries of the gathered array `hginfo`, read in the loop's
visiting order `hginfo[eff_i]`. -/
def visitSeq {α : Type} [Inhabited α] (hginfo : List α) (rank : Nat) :
    List α :=
  (visitOrder rank hginfo.length).map (fun i => hginfo.getD i default)

/-- Address-resolution loop of `discover_local_info`
(nexus_setup.cc lines 302-338): visit the gathered `ldata` entries in
self-first cyclic order and resolve and insert each one, aborting on
any failure.  (The `lroot` update folded through the same loop is
modelled separately by `computeLroot`.) -/
def discover_local_info (env : ResolveEnv) (self_grank : Int)
    (lrank : Nat) (hginfo : List ldata) : Option (List RouteInsert) :=
  discoverSteps env self_grank ((visitSeq hginfo lrank).map ldata.toPeer)

/-- Address-resolution loop of `discover_remote_info`
(nexus_setup.cc lines 410-433): visit the gathered `rdata` entries in
self-first cyclic order and resolve and insert each one, aborting on
any failure. -/
def discover_remote_info (env : ResolveEnv) (self_grank : Int)
    (rep_rank : Nat) (hginfo : List rdata) : Option (List RouteInsert) :=
  discoverSteps env self_grank ((visitSeq hginfo rep_rank).map rdata.toPeer)

/-- `MPI_Allgather` of one value per rank over a communicator of `n`
ranks: the gathered array holds, at index `r`, rank `r`'s contribution. -/
def mpi_allgather {α : Type} (contrib : Nat → α) (n : Nat) : List α :=
  (List.range n).map contrib

/-- The `rankreps` array built in `discover_remote_info`
(nexus_setup.cc lines 369-375): an all-gather of every global rank's
`nctx->lroot` over `MPI_COMM_WORLD`. -/
def build_rankreps (lroots : Nat → Int) (gsize : Nat) : List Int :=
  mpi_allgather lroots gsize

/-- The `nctx->lroot` assignment folded through the local discovery
loop (nexus_setup.cc lines 306-308): visiting `hginfo[eff_i]` in the
loop's order, record the global rank of an entry whose local rank is 0;
`none` models the field never being assigned. -/
def computeLroot (hginfo : List ldata) (lrank : Nat) : Option Int :=
  (visitSeq hginfo lrank).foldl
    (fun acc e => if e.lrank = 0 then some e.grank else acc) none

/-- What one recorded insertion says about the peer it came from:
keyed by the peer's global rank, sourced per the self-or-lookup branch,
and carrying the successfully resolved address. -/
def InsSpec (env : ResolveEnv) (self_grank : Int)
    (p : peer_t) (ri : RouteInsert) : Prop :=
  ri.key = p.grank ∧ ri.src = peerSource self_grank p ∧
    resolveVia env ri.src = some ri.addr

end Discovery

section RoutingResolver

/-- The context fields the routing resolver consumes: own global rank,
global group size, own node's representative identity (`lroot`), the
representative map (`rankreps`, indexed by global rank), and the two
routing tables (`laddrs`, `gaddrs`, keyed by global rank). -/
structure nexus_ctx where
  grank : Int
  gsize : Nat
  lroot : Int
  rankreps : List Int
  laddrs : List (Int × hg_addr_t)
  gaddrs : List (Int × hg_addr_t)

/-- Lookup of a rank key in a routing table (a `std::map` find). -/
def lookupTable (tbl : List (Int × hg_addr_t)) (k : Int) :
    Option hg_addr_t :=
  (tbl.find? (fun e => e.1 == k)).map Prod.snd

/-- Modelled from the spec: the body of `nexus_next_hop` is not among
the two source files (only its declaration in `deltafs-nexus_api.h`),
so this follows spec section 4.6 word by word.  An out-of-range
destination is rejected as an invalid parameter; then, in priority
order: destination equal to the caller is terminal (`NX_DONE`); a
destination whose representative equals the caller's own representative
is co-located and resolved through the local table; a non-representative
caller forwards to its own representative through the local table; a
representative caller forwards to the destination's representative
through the remote table.  A representative identity missing from its
expected table is a not-found error, not an abort. -/
def nexus_next_hop (nctx : nexus_ctx) (dest : Int) :
    nexus_ret × Option (Int × hg_addr_t) :=
  if dest < 0 ∨ (nctx.gsize : Int) ≤ dest then (nexus_ret.NX_INVAL, none)
  else if dest = nctx.grank then (nexus_ret.NX_DONE, none)
  else
    let destrep := nctx.rankreps.getD dest.toNat 0
    if destrep = nctx.lroot then
      match lookupTable nctx.laddrs dest with
      | some a => (nexus_ret.NX_ISLOCAL, some (dest, a))
      | none => (nexus_ret.NX_NOTFOUND, none)
    else if nctx.grank ≠ nctx.lroot then
      match lookupTable nctx.laddrs nctx.lroot with
      | some a => (nexus_ret.NX_SRCREP, some (nctx.lroot, a))
      | none => (nexus_ret.NX_NOTFOUND, none)
    else
      match lookupTable nctx.gaddrs destrep with
      | some a => (nexus_ret.NX_DESTREP, some (destrep, a))
      | none => (nexus_ret.NX_NOTFOUND, none)

/-- State-passing form of the resolver, making explicit that a routing
query is a pure read: the context passed back is the one passed in. -/
def nexus_next_hop_st (nctx : nexus_ctx) (dest : Int) :
    (nexus_ret × Option (Int × hg_addr_t)) × nexus_ctx :=
  (nexus_next_hop nctx dest, nctx)

end RoutingResolver

section ProgressEngine

/-- Timeout argument of the `HG_Trigger` call at nexus_setup.cc line 62
(a non-blocking drain). -/
def HG_Trigger_timeout : Nat := 0

/-- Maximum callback count per `HG_Trigger` call (line 62). -/
def HG_Trigger_max_count : Nat := 1

/-- Timeout argument of the `HG_Progress` call at line 68
(a bounded poll, in milliseconds). -/
def HG_Progress_timeout : Nat := 100

/-- What one `HG_Trigger` call reports: its return code and the number
of callbacks it ran. -/
structure trigger_result where
  hret : hg_return
  count : Nat
deriving DecidableEq

/-- A Mercury return code is fatal to the progress thread when it is
neither success nor the no-work-available timeout
(nexus_setup.cc lines 65-66 and 69-70). -/
def fatal_hret (h : hg_return) : Bool :=
  h != hg_return.HG_SUCCESS && h != hg_return.HG_TIMEOUT

/-- The inner `do { hret = HG_Trigger(...) } while (hret == HG_SUCCESS
&& count)` drain (lines 61-63) over the successive trigger results
the transport would report, ending with the return code of the call
that exits the loop.  (The scripts fed to it are expected to end with
an exiting result; a singleton is that exiting call.) -/
def hg_trigger_drain : List trigger_result → hg_return
  | [] => hg_return.HG_TIMEOUT
  | [r] => r.hret
  | r :: r2 :: rest =>
    if r.hret = hg_return.HG_SUCCESS ∧ r.count ≠ 0 then
      hg_trigger_drain (r2 :: rest)
    else r.hret

/-- Transport behaviour observed by one iteration of the outer
`while (!bgdat->bgdone)` loop: the successive trigger results of the
drain, then the progress result. -/
structure bg_iteration where
  triggers : List trigger_result
  progress : hg_return
deriving DecidableEq

/-- `nexus_bgthread` (nexus_setup.cc lines 48-74) over the iterations
executed before the stop flag is observed (list exhaustion models the
flag being seen): each iteration drains the trigger queue, aborting on
a fatal drain result, then advances progress, aborting on a fatal
progress result. -/
def nexus_bgthread : List bg_iteration → Option Unit
  | [] => some ()
  | it :: rest =>
    if fatal_hret (hg_trigger_drain it.triggers) then none
    else if fatal_hret it.progress then none
    else nexus_bgthread rest

end ProgressEngine

section Bootstrap

/-- Internal phases of `prepare_addr`, in source order
(nexus_setup.cc lines 80-176): the getifaddrs interface scan, the three
port-range sanity aborts, the socket/bind port probing (with OS-assigned
fallback), and the final URI construction. -/
inductive PrepStep where
  | queryIfaces
  | rangeCheck
  | probePorts
  | buildUri
deriving DecidableEq

/-- `prepare_addr`'s phase order. -/
def prepare_addr_events : List PrepStep :=
  [PrepStep.queryIfaces, PrepStep.rangeCheck, PrepStep.probePorts,
   PrepStep.buildUri]

/-- OS observations `prepare_addr` makes: the numeric address of an
AF_INET interface matching the subnet (if any), the first free port the
in-range probe finds (if any), and the port the OS-assigned fallback
bind reports (if that probe succeeds). -/
structure PrepareEnv where
  matched_ip : Option String
  free_port : Option Int
  os_port : Option Int

/-- `prepare_addr` (nexus_setup.cc lines 80-176): scan interfaces for
the subnet (abort if none matches), sanity-check the port range
(abort if inverted, below 1, or above 65535), then take a free in-range
port or fall back to an OS-assigned one, aborting if the resulting port
is 0, and finally format the URI. -/
def prepare_addr (env : PrepareEnv) (minport maxport : Int)
    (proto : String) : Option String :=
  match env.matched_ip with
  | none => none
  | some ip =>
    if maxport - minport < 0 then none
    else if minport < 1 then none
    else if maxport > 65535 then none
    else
      let port : Int :=
        match env.free_port with
        | some p => p
        | none =>
          match env.os_port with
          | some p => p
          | none => 0
      if port = 0 then none
      else some (proto ++ "://" ++ ip ++ ":" ++ toString port)

/-- Top-level steps of `nexus_bootstrap`, in call order
(nexus_setup.cc lines 446-477). -/
inductive BootStep where
  | commRankSize
  | initLocalComm
  | discoverLocal
  | prepareAddr
  | initRepComm
  | discoverRemote
deriving DecidableEq

/-- Whether a bootstrap step performs group (MPI collective or
communicator-splitting) or network (Mercury endpoint or lookup)
operations.  `prepareAddr` only scans local interfaces and probes local
ports. -/
def BootStep.usesGroupOrNetwork : BootStep → Bool
  | BootStep.commRankSize => true
  | BootStep.initLocalComm => true
  | BootStep.discoverLocal => true
  | BootStep.prepareAddr => false
  | BootStep.initRepComm => true
  | BootStep.discoverRemote => true

/-- Everything `nexus_bootstrap` observes from the substrate and the
transport.  `init_local_comm` and `init_rep_comm` are declared in
`nexus_internal.h` whose implementation file is not among the sources;
per spec section 4.1, a failure to produce group membership is a fatal
abort, so each is modelled by a success flag. -/
structure BootstrapEnv where
  grank : Int
  lrank : Nat
  local_comm_ok : Bool
  local_hginfo : List ldata
  local_resolve : ResolveEnv
  prep : PrepareEnv
  rep_comm_ok : Bool
  rep_rank : Nat
  rep_hginfo : List rdata
  remote_resolve : ResolveEnv

/-- `nexus_bootstrap` (nexus_setup.cc lines 446-477): runs its
sub-steps in source order — rank/size query, local communicator
creation, local discovery, address preparation, representative
communicator creation, remote discovery — and returns the executed
step trace together with either `none` (a sub-step aborted the
process) or the value of the single return statement. -/
def nexus_bootstrap (env : BootstrapEnv) (minport maxport : Int)
    (proto : String) : List BootStep × Option nexus_ret :=
  if ¬env.local_comm_ok then
    ([BootStep.commRankSize, BootStep.initLocalComm], none)
  else
    match discover_local_info env.local_resolve env.grank env.lrank
        env.local_hginfo with
    | none =>
      ([BootStep.commRankSize, BootStep.initLocalComm,
        BootStep.discoverLocal], none)
    | some _ =>
      match prepare_addr env.prep minport maxport proto with
      | none =>
        ([BootStep.commRankSize, BootStep.initLocalComm,
          BootStep.discoverLocal, BootStep.prepareAddr], none)
      | some _ =>
        if ¬env.rep_comm_ok then
          ([BootStep.commRankSize, BootStep.initLocalComm,
            BootStep.discoverLocal, BootStep.prepareAddr,
            BootStep.initRepComm], none)
        else
          match discover_remote_info env.remote_resolve env.grank
              env.rep_rank env.rep_hginfo with
          | none =>
            ([BootStep.commRankSize, BootStep.initLocalComm,
              BootStep.discoverLocal, BootStep.prepareAddr,
              BootStep.initRepComm, BootStep.discoverRemote], none)
          | some _ =>
            ([BootStep.commRankSize, BootStep.initLocalComm,
              BootStep.discoverLocal, BootStep.prepareAddr,
              BootStep.initRepComm, BootStep.discoverRemote],
             some nexus_ret.NX_SUCCESS)

/-- `nexus_destroy` (nexus_setup.cc lines 479-517): frees every
non-null address of the local then the remote table, tears down the
endpoints, and returns through its single return statement,
`return NX_SUCCESS` — its body contains no abort and no other return.
The freed address lists are returned alongside the code. -/
def nexus_destroy (nctx : nexus_ctx) :
    (List hg_addr_t × List hg_addr_t) × nexus_ret :=
  (((nctx.laddrs.filter (fun e => e.2 != HG_ADDR_NULL)).map Prod.snd,
    (nctx.gaddrs.filter (fun e => e.2 != HG_ADDR_NULL)).map Prod.snd),
   nexus_ret.NX_SUCCESS)

end Bootstrap

section Fixtures

/-- Resolve environment where every resolution succeeds. -/
def envResOk : ResolveEnv :=
  { HG_Addr_self := some 7, hg_lookup := fun _ => some 8 }

/-- Resolve environment whose network lookups all fail. -/
def envResFail : ResolveEnv :=
  { HG_Addr_self := some 7, hg_lookup := fun _ => none }

/-- Two-process local group: global ranks 5 (local rank 0) and 6. -/
def hlocalW : List ldata :=
  [{ pid := 101, hgid := 0, grank := 5, lrank := 0 },
   { pid := 102, hgid := 0, grank := 6, lrank := 1 }]

/-- Two-representative group: global ranks 5 and 7. -/
def hremW : List rdata :=
  [{ addr := "bmi+tcp://10.0.0.1:5000", grank := 5 },
   { addr := "bmi+tcp://10.0.0.2:5000", grank := 7 }]

/-- A four-rank, two-node routing context: nodes are ranks 0-1 and 2-3,
represented by ranks 0 and 2; the caller is rank 1. -/
def nctxW : nexus_ctx :=
  { grank := 1, gsize := 4, lroot := 0, rankreps := [0, 0, 2, 2],
    laddrs := [(0, 3), (1, 4)], gaddrs := [(0, 5), (2, 6)] }

/-- Bootstrap environment in which every sub-step succeeds. -/
def envBootOk : BootstrapEnv :=
  { grank := 5, lrank := 0, local_comm_ok := true,
    local_hginfo := hlocalW, local_resolve := envResOk,
    prep := { matched_ip := some "10.0.0.1", free_port := some 5000,
              os_port := none },
    rep_comm_ok := true, rep_rank := 0, rep_hginfo := hremW,
    remote_resolve := envResOk }

end Fixtures

/-- C7: in both local and remote discovery the group barrier (over the
local communicator resp. the representative communicator) strictly
precedes the write of the progress thread's stop flag, which strictly
precedes the thread join; each of these events occurs exactly once, and
the peer-visiting loop — the only point where resolutions are issued —
precedes the barrier. -/
theorem barrier_before_progress_engine_teardown :
    (discover_local_events.indexOf (DiscEvent.barrier NxComm.localComm)
        < discover_local_events.indexOf DiscEvent.setStopFlag
      ∧ discover_local_events.indexOf DiscEvent.setStopFlag
        < discover_local_events.indexOf DiscEvent.joinProgressThread
      ∧ discover_local_events.count (DiscEvent.barrier NxComm.localComm) = 1
      ∧ discover_local_events.count DiscEvent.setStopFlag = 1
      ∧ discover_local_events.count DiscEvent.joinProgressThread = 1
      ∧ discover_local_events.indexOf DiscEvent.visitPeersLoop
        < discover_local_events.indexOf (DiscEvent.barrier NxComm.localComm))
    ∧ (discover_remote_events.indexOf (DiscEvent.barrier NxComm.repComm)
        < discover_remote_events.indexOf DiscEvent.setStopFlag
      ∧ discover_remote_events.indexOf DiscEvent.setStopFlag
        < discover_remote_events.indexOf DiscEvent.joinProgressThread
      ∧ discover_remote_events.count (DiscEvent.barrier NxComm.repComm) = 1
      ∧ discover_remote_events.count DiscEvent.setStopFlag = 1
      ∧ discover_remote_events.count DiscEvent.joinProgressThread = 1
      ∧ discover_remote_events.indexOf DiscEvent.visitPeersLoop
        < discover_remote_events.indexOf (DiscEvent.barrier NxComm.repComm)) := by
  decide

/-- C9: the terminator store `rdat.addr[60] = 0` performed while building
the representative record lies outside the bounds of the 60-byte `addr`
field (valid indices are `0..59`) — the build writes an out-of-bounds
index. -/
theorem rdat_terminator_write_out_of_bounds :
    60 ∈ rdat_addr_write_indices ∧ ¬ 60 < rdata_addr_size := by
  decide

/-- The loop's index sequence is exactly the rotation of `0, 1, ..., n-1`
by the caller's own rank. -/
theorem visitOrder_eq_rotate (rank n : Nat) :
    visitOrder rank n = (List.range n).rotate rank := by
  apply List.ext_get
  · simp [visitOrder, List.length_rotate]
  · intro i h1 h2
    simp only [visitOrder, List.get_map, List.get_rotate, List.get_range,
      List.length_range]
    exact Nat.add_comm rank i ▸ rfl

/-- The first index the loop visits is the caller's own rank. -/
theorem visitOrder_head (rank n : Nat) (h : rank < n) :
    (visitOrder rank n).head? = some rank := by
  obtain ⟨m, rfl⟩ : ∃ m, n = m + 1 := ⟨n - 1, by omega⟩
  simp [visitOrder, List.range_succ_eq_map, Nat.mod_eq_of_lt h]

/-- The loop's index sequence visits each index below `n` exactly once. -/
theorem visitOrder_perm (rank n : Nat) :
    List.Perm (visitOrder rank n) (List.range n) := by
  rw [visitOrder_eq_rotate rank n]
  exact List.rotate_perm _ _

/-- Reading a list at every index of `range` in order gives the list back. -/
theorem range_map_getD {α : Type} [Inhabited α] (xs : List α) :
    (List.range xs.length).map (fun i => xs.getD i default) = xs := by
  apply List.ext_get
  · simp
  · intro i h1 h2
    simp only [List.get_map, List.get_range]
    exact List.getD_eq_getElem xs default h2

/-- The visited entry sequence is a permutation of the gathered array:
every peer of the group is visited exactly once. -/
theorem visitSeq_perm {α : Type} [Inhabited α] (xs : List α) (rank : Nat) :
    List.Perm (visitSeq xs rank) xs := by
  have h2 := (visitOrder_perm rank xs.length).map
    (fun i => xs.getD i default)
  rw [range_map_getD] at h2
  exact h2

/-- A completed run of the discovery loop records, peer by peer in visit
order, an insertion satisfying `InsSpec`. -/
theorem discoverSteps_forall2 (env : ResolveEnv) (self_grank : Int)
    (peers : List peer_t) :
    ∀ ins, discoverSteps env self_grank peers = some ins →
      List.Forall₂ (InsSpec env self_grank) peers ins := by
  induction peers with
  | nil =>
    intro ins h
    simp only [discoverSteps, Option.some.injEq] at h
    subst h
    constructor
  | cons p rest ih =>
    intro ins h
    simp only [discoverSteps] at h
    cases hres : resolveVia env (peerSource self_grank p) <;> rw [hres] at h
    · exact absurd h (by simp)
    case some a =>
      cases hrec : discoverSteps env self_grank rest <;> rw [hrec] at h
      · exact absurd h (by simp)
      case some tail =>
        simp only [Option.some.injEq] at h
        subst h
        exact List.Forall₂.cons ⟨rfl, rfl, by simp [hres]⟩ (ih tail hrec)

/-- The discovery loop completes exactly when every visited peer's
resolution succeeds. -/
theorem discoverSteps_isSome_iff (env : ResolveEnv) (self_grank : Int)
    (peers : List peer_t) :
    (discoverSteps env self_grank peers).isSome ↔
      ∀ p ∈ peers, (resolveVia env (peerSource self_grank p)).isSome := by
  induction peers with
  | nil => simp [discoverSteps]
  | cons p rest ih =>
    simp only [discoverSteps, List.mem_cons]
    cases hres : resolveVia env (peerSource self_grank p)
    · simp only [Option.isSome_none]
      constructor
      · intro h; exact absurd h (by simp)
      · intro hall
        have := hall p (Or.inl rfl)
        rw [hres] at this
        exact absurd this (by simp)
    case some a =>
      cases hrec : discoverSteps env self_grank rest
      · rw [hrec] at ih
        simp only [Option.isSome_none] at ih ⊢
        constructor
        · intro h; exact absurd h (by simp)
        · intro hall
          have : ∀ q ∈ rest, (resolveVia env (peerSource self_grank q)).isSome :=
            fun q hq => hall q (Or.inr hq)
          exact absurd (ih.mpr this) (by simp)
      case some tail =>
        rw [hrec] at ih
        simp only [Option.isSome_some, eq_self_iff_true, true_iff] at ih ⊢
        intro q hq
        rcases hq with rfl | hq
        · rw [hres]; rfl
        · exact ih q hq

/-- A pointwise relation between two lists locates, for each right
element, a related left element. -/
theorem forall2_mem_right {α β : Type} {R : α → β → Prop}
    {as : List α} {bs : List β} (h : List.Forall₂ R as bs) :
    ∀ b ∈ bs, ∃ a ∈ as, R a b := by
  induction h with
  | nil => intro b hb; exact absurd hb (by simp)
  | cons hR _ ih =>
    intro b hb
    rcases List.mem_cons.mp hb with rfl | hb
    · exact ⟨_, List.mem_cons_self _ _, hR⟩
    · obtain ⟨a, ha, hab⟩ := ih b hb
      exact ⟨a, List.mem_cons_of_mem _ ha, hab⟩

/-- A pointwise relation between two lists locates, for each left
element, a related right element. -/
theorem forall2_mem_left {α β : Type} {R : α → β → Prop}
    {as : List α} {bs : List β} (h : List.Forall₂ R as bs) :
    ∀ a ∈ as, ∃ b ∈ bs, R a b := by
  induction h with
  | nil => intro a ha; exact absurd ha (by simp)
  | cons hR _ ih =>
    intro a ha
    rcases List.mem_cons.mp ha with rfl | ha
    · exact ⟨_, List.mem_cons_self _ _, hR⟩
    · obtain ⟨b, hb, hab⟩ := ih a ha
      exact ⟨b, List.mem_cons_of_mem _ hb, hab⟩

/-- Related insertion lists carry, position by position, the peers'
global ranks as keys. -/
theorem forall2_keys {env : ResolveEnv} {self_grank : Int}
    {peers : List peer_t} {ins : List RouteInsert}
    (h : List.Forall₂ (InsSpec env self_grank) peers ins) :
    ins.map RouteInsert.key = peers.map peer_t.grank := by
  induction h with
  | nil => rfl
  | cons hR _ ih => simp only [List.map_cons, hR.1, ih]

/-- The keys of a completed run are the visited peers' global ranks, in
visit order. -/
theorem discoverSteps_keys (env : ResolveEnv) (self_grank : Int)
    (peers : List peer_t) (ins : List RouteInsert)
    (h : discoverSteps env self_grank peers = some ins) :
    ins.map RouteInsert.key = peers.map peer_t.grank :=
  forall2_keys (discoverSteps_forall2 env self_grank peers ins h)

/-- Each recorded insertion of a completed run was obtained by a
self-address query exactly when its key is the caller's own global rank
(otherwise by a lookup), and carries the address that resolution
returned. -/
theorem discoverSteps_sources (env : ResolveEnv) (self_grank : Int)
    (peers : List peer_t) (ins : List RouteInsert)
    (h : discoverSteps env self_grank peers = some ins) :
    ∀ ri ∈ ins, (ri.src = AddrSource.selfQuery ↔ ri.key = self_grank)
      ∧ resolveVia env ri.src = some ri.addr := by
  intro ri hri
  obtain ⟨p, _, hkey, hsrc, hres⟩ :=
    forall2_mem_right (discoverSteps_forall2 env self_grank peers ins h) ri hri
  refine ⟨?_, hres⟩
  rw [hkey, hsrc]
  unfold peerSource
  by_cases hp : p.grank = self_grank
  · simp [hp]
  · simp [hp]

/-- C1: during local and remote discovery, every process visits the
peers of its group cyclically starting from its own local
(resp. representative) rank — the index order is the rotation of
`0..n-1` by that rank, so it begins with the process itself and hits
every gathered entry exactly once — and, for every insertion a
completed run makes into the routing table, the address was obtained
by a self-address query exactly when the peer is the caller itself
(by a lookup on the peer's address string otherwise), was the value
the resolution returned, and is keyed by that peer's global rank in
visit order. -/
theorem discovery_visits_self_first_cyclic
    (env : ResolveEnv) (self_grank : Int)
    (lrank : Nat) (hlocal : List ldata) (hl : lrank < hlocal.length)
    (rep_rank : Nat) (hrem : List rdata) (hr : rep_rank < hrem.length)
    (insL insR : List RouteInsert)
    (hL : discover_local_info env self_grank lrank hlocal = some insL)
    (hR : discover_remote_info env self_grank rep_rank hrem = some insR) :
    (visitOrder lrank hlocal.length = (List.range hlocal.length).rotate lrank
      ∧ (visitOrder lrank hlocal.length).head? = some lrank
      ∧ List.Perm (visitSeq hlocal lrank) hlocal
      ∧ insL.map RouteInsert.key
          = ((visitSeq hlocal lrank).map ldata.toPeer).map peer_t.grank
      ∧ ∀ ri ∈ insL,
          (ri.src = AddrSource.selfQuery ↔ ri.key = self_grank)
          ∧ resolveVia env ri.src = some ri.addr)
    ∧ (visitOrder rep_rank hrem.length
          = (List.range hrem.length).rotate rep_rank
      ∧ (visitOrder rep_rank hrem.length).head? = some rep_rank
      ∧ List.Perm (visitSeq hrem rep_rank) hrem
      ∧ insR.map RouteInsert.key
          = ((visitSeq hrem rep_rank).map rdata.toPeer).map peer_t.grank
      ∧ ∀ ri ∈ insR,
          (ri.src = AddrSource.selfQuery ↔ ri.key = self_grank)
          ∧ resolveVia env ri.src = some ri.addr) :=
  ⟨⟨visitOrder_eq_rotate lrank hlocal.length,
    visitOrder_head lrank hlocal.length hl,
    visitSeq_perm hlocal lrank,
    discoverSteps_keys env self_grank _ insL hL,
    discoverSteps_sources env self_grank _ insL hL⟩,
   ⟨visitOrder_eq_rotate rep_rank hrem.length,
    visitOrder_head rep_rank hrem.length hr,
    visitSeq_perm hrem rep_rank,
    discoverSteps_keys env self_grank _ insR hR,
    discoverSteps_sources env self_grank _ insR hR⟩⟩

/-- A failed resolution anywhere in the visit list aborts the loop. -/
theorem discoverSteps_none_of_failure (env : ResolveEnv) (self_grank : Int)
    (peers : List peer_t)
    (hfail : ∃ p ∈ peers, resolveVia env (peerSource self_grank p) = none) :
    discoverSteps env self_grank peers = none := by
  obtain ⟨p, hp, hf⟩ := hfail
  cases hds : discoverSteps env self_grank peers
  · rfl
  case some ins =>
    have hall := (discoverSteps_isSome_iff env self_grank peers).mp
      (by rw [hds]; rfl)
    have := hall p hp
    rw [hf] at this
    exact absurd this (by simp)

/-- A completed loop holds an entry for every visited peer. -/
theorem discoverSteps_complete (env : ResolveEnv) (self_grank : Int)
    (peers : List peer_t) (ins : List RouteInsert)
    (h : discoverSteps env self_grank peers = some ins) :
    ∀ p ∈ peers, ∃ ri ∈ ins, ri.key = p.grank
      ∧ resolveVia env (peerSource self_grank p) = some ri.addr := by
  intro p hp
  obtain ⟨ri, hri, hkey, hsrc, hres⟩ :=
    forall2_mem_left (discoverSteps_forall2 env self_grank peers ins h) p hp
  exact ⟨ri, hri, hkey, by rw [← hsrc]; exact hres⟩

/-- C3: in both discovery loops, a peer whose address resolution does
not return success makes the loop abort the process (modelled as
`none`); conversely a run that completes returns a routing table with
an entry — keyed by the peer's global rank and holding its successfully
resolved address — for every visited peer, so discovery never completes
with a partially populated table. -/
theorem discovery_abort_on_resolution_failure
    (env : ResolveEnv) (self_grank : Int)
    (lrank : Nat) (hlocal : List ldata)
    (rep_rank : Nat) (hrem : List rdata) :
    ((∃ p ∈ (visitSeq hlocal lrank).map ldata.toPeer,
        resolveVia env (peerSource self_grank p) = none) →
      discover_local_info env self_grank lrank hlocal = none)
    ∧ (∀ tbl, discover_local_info env self_grank lrank hlocal = some tbl →
        ∀ p ∈ (visitSeq hlocal lrank).map ldata.toPeer,
          ∃ ri ∈ tbl, ri.key = p.grank
            ∧ resolveVia env (peerSource self_grank p) = some ri.addr)
    ∧ ((∃ p ∈ (visitSeq hrem rep_rank).map rdata.toPeer,
        resolveVia env (peerSource self_grank p) = none) →
      discover_remote_info env self_grank rep_rank hrem = none)
    ∧ (∀ tbl, discover_remote_info env self_grank rep_rank hrem = some tbl →
        ∀ p ∈ (visitSeq hrem rep_rank).map rdata.toPeer,
          ∃ ri ∈ tbl, ri.key = p.grank
            ∧ resolveVia env (peerSource self_grank p) = some ri.addr) :=
  ⟨fun h => discoverSteps_none_of_failure env self_grank _ h,
   fun tbl h => discoverSteps_complete env self_grank _ tbl h,
   fun h => discoverSteps_none_of_failure env self_grank _ h,
   fun tbl h => discoverSteps_complete env self_grank _ tbl h⟩

/-- Folding the lroot update over entries none of which has local rank 0
leaves the accumulator unchanged. -/
theorem foldl_lroot_no_match :
    ∀ (xs : List ldata) (init : Option Int),
      xs.filter (fun e => e.lrank == 0) = [] →
      xs.foldl (fun acc e => if e.lrank = 0 then some e.grank else acc) init
        = init := by
  intro xs
  induction xs with
  | nil => intro init _; rfl
  | cons x rest ih =>
    intro init h
    rw [List.filter_cons] at h
    by_cases hx : x.lrank = 0
    · simp [hx] at h
    · have hx' : (x.lrank == 0) = false := by simp [hx]
      rw [hx'] at h
      simp only [Bool.false_eq_true, if_false] at h
      simp only [List.foldl_cons, if_neg hx]
      exact ih init h

/-- If exactly one entry of the list has local rank 0, the fold records
that entry's global rank, whatever the initial accumulator. -/
theorem foldl_lroot_single (e0 : ldata) :
    ∀ (xs : List ldata) (init : Option Int),
      xs.filter (fun e => e.lrank == 0) = [e0] →
      xs.foldl (fun acc e => if e.lrank = 0 then some e.grank else acc) init
        = some e0.grank := by
  intro xs
  induction xs with
  | nil => intro init h; exact absurd h (by simp)
  | cons x rest ih =>
    intro init h
    rw [List.filter_cons] at h
    by_cases hx : x.lrank = 0
    · have hx' : (x.lrank == 0) = true := by simp [hx]
      rw [hx'] at h
      simp only [if_true, List.cons.injEq] at h
      obtain ⟨h1, h2⟩ := h
      simp only [List.foldl_cons, if_pos hx]
      rw [foldl_lroot_no_match rest _ h2, h1]
    · have hx' : (x.lrank == 0) = false := by simp [hx]
      rw [hx'] at h
      simp only [Bool.false_eq_true, if_false] at h
      simp only [List.foldl_cons, if_neg hx]
      exact ih init h

/-- C2: the representative map gathered over the whole world
communicator has exactly one entry per global rank — its length is the
global group size and the entry at index `r` is the `lroot` value
contributed by rank `r` — and, whenever the gathered local group holds
exactly one record with local rank 0 (with global rank `g0`), every
member of that local group, whatever its own local rank, derives the
same representative identity `g0` from the local discovery loop. -/
theorem rankreps_total_and_lroot_consistent
    (gsize : Nat) (lroots : Nat → Int)
    (hginfo : List ldata) (g0 : Int)
    (huniq : (hginfo.filter (fun e => e.lrank == 0)).map ldata.grank
      = [g0]) :
    (build_rankreps lroots gsize).length = gsize
    ∧ (∀ r, r < gsize → (build_rankreps lroots gsize).getD r 0 = lroots r)
    ∧ (∀ lrank, computeLroot hginfo lrank = some g0) := by
  refine ⟨by simp [build_rankreps, mpi_allgather], ?_, ?_⟩
  · intro r hr
    have hr' : r < ((List.range gsize).map lroots).length := by simp [hr]
    rw [build_rankreps, mpi_allgather, List.getD_eq_getElem _ _ hr']
    simp
  · intro lrank
    obtain ⟨e0, hfe, hg⟩ : ∃ e0, hginfo.filter (fun e => e.lrank == 0)
        = [e0] ∧ e0.grank = g0 := by
      cases hf : hginfo.filter (fun e => e.lrank == 0) with
      | nil => rw [hf] at huniq; exact absurd huniq (by simp)
      | cons a t =>
        rw [hf] at huniq
        cases t with
        | nil =>
          simp only [List.map_cons, List.map_nil, List.cons.injEq] at huniq
          exact ⟨a, rfl, huniq.1⟩
        | cons b t2 =>
          have := congrArg List.length huniq
          simp at this
    have hperm := ((visitSeq_perm hginfo lrank).filter
      (fun e => e.lrank == 0))
    rw [hfe] at hperm
    have hseq : (visitSeq hginfo lrank).filter (fun e => e.lrank == 0)
        = [e0] := List.perm_singleton.mp hperm
    rw [computeLroot, foldl_lroot_single e0 _ none hseq, hg]

/-- C5: for every process of the group (its own global rank lies in the
valid range), the spec-modelled resolver applied to the caller's own
global rank returns the terminal already-at-destination decision
`NX_DONE`, with no further hop. -/
theorem next_hop_self_is_done (nctx : nexus_ctx)
    (h0 : 0 ≤ nctx.grank) (h1 : nctx.grank < (nctx.gsize : Int)) :
    nexus_next_hop nctx nctx.grank = (nexus_ret.NX_DONE, none) := by
  unfold nexus_next_hop
  rw [if_neg (by omega), if_pos rfl]

/-- C6: the spec-modelled resolver rejects any destination outside the
valid global-rank range (negative, or at least the global group size)
with the invalid-parameter decision `NX_INVAL` and no hop — it returns
rather than aborting — and its state-passing form leaves the context,
in particular both routing tables and the representative map,
unchanged. -/
theorem next_hop_invalid_dest_rejected (nctx : nexus_ctx) (dest : Int)
    (h : dest < 0 ∨ (nctx.gsize : Int) ≤ dest) :
    nexus_next_hop nctx dest = (nexus_ret.NX_INVAL, none)
    ∧ (nexus_next_hop_st nctx dest).2 = nctx
    ∧ (nexus_next_hop_st nctx dest).2.laddrs = nctx.laddrs
    ∧ (nexus_next_hop_st nctx dest).2.gaddrs = nctx.gaddrs
    ∧ (nexus_next_hop_st nctx dest).2.rankreps = nctx.rankreps := by
  refine ⟨?_, rfl, rfl, rfl, rfl⟩
  unfold nexus_next_hop
  rw [if_pos h]

/-- C8: the progress thread's inner drain repeats the non-blocking
trigger exactly while the previous call reported success together with
completed work, and otherwise stops with the observed return code; the
trigger is non-blocking with at most one callback per call and the
progress call polls with a bounded 100 ms timeout; the outer loop ends
normally once the stop flag is observed, and it aborts exactly when
some executed drain or progress step observes a return code that is
neither success nor the no-work timeout. -/
theorem bgthread_drain_then_progress_abort_on_error :
    (∀ (r r2 : trigger_result) (rest : List trigger_result),
      (r.hret = hg_return.HG_SUCCESS ∧ r.count ≠ 0 →
        hg_trigger_drain (r :: r2 :: rest) = hg_trigger_drain (r2 :: rest))
      ∧ (¬(r.hret = hg_return.HG_SUCCESS ∧ r.count ≠ 0) →
        hg_trigger_drain (r :: r2 :: rest) = r.hret))
    ∧ HG_Trigger_timeout = 0
    ∧ HG_Trigger_max_count = 1
    ∧ HG_Progress_timeout = 100
    ∧ nexus_bgthread [] = some ()
    ∧ (∀ its : List bg_iteration,
        nexus_bgthread its = none ↔
          ∃ it ∈ its, fatal_hret (hg_trigger_drain it.triggers) = true
            ∨ fatal_hret it.progress = true)
    ∧ (∀ h : hg_return, fatal_hret h = true ↔
        (h ≠ hg_return.HG_SUCCESS ∧ h ≠ hg_return.HG_TIMEOUT)) := by
  refine ⟨?_, rfl, rfl, rfl, rfl, ?_, ?_⟩
  · intro r r2 rest
    constructor
    · intro h
      simp only [hg_trigger_drain]
      rw [if_pos h]
    · intro h
      simp only [hg_trigger_drain]
      rw [if_neg h]
  · intro its
    induction its with
    | nil => simp [nexus_bgthread]
    | cons it rest ih =>
      unfold nexus_bgthread
      by_cases h1 : fatal_hret (hg_trigger_drain it.triggers) = true
      · rw [if_pos h1]
        constructor
        · intro _
          exact ⟨it, List.mem_cons_self _ _, Or.inl h1⟩
        · intro _
          rfl
      · rw [if_neg h1]
        by_cases h2 : fatal_hret it.progress = true
        · rw [if_pos h2]
          constructor
          · intro _
            exact ⟨it, List.mem_cons_self _ _, Or.inr h2⟩
          · intro _
            rfl
        · rw [if_neg h2, ih]
          constructor
          · intro ⟨q, hq, hfq⟩
            exact ⟨q, List.mem_cons_of_mem _ hq, hfq⟩
          · intro ⟨q, hq, hfq⟩
            rcases List.mem_cons.mp hq with rfl | hq
            · rcases hfq with hfq | hfq
              · exact absurd hfq h1
              · exact absurd hfq h2
            · exact ⟨q, hq, hfq⟩
  · intro h
    cases h <;> simp [fatal_hret]

/-- C4 is refuted as stated: bootstrapping with min_port = 2 greater
than max_port = 1, in an environment where the preceding steps succeed,
does abort — but only at the address-preparation step, after the
local-communicator creation and the whole local discovery (both group
and network operations) have already executed. -/
theorem bootstrap_inverted_range_runs_group_ops_first :
    (nexus_bootstrap envBootOk 2 1 "bmi+tcp").2 = none
    ∧ BootStep.initLocalComm ∈ (nexus_bootstrap envBootOk 2 1 "bmi+tcp").1
    ∧ BootStep.discoverLocal ∈ (nexus_bootstrap envBootOk 2 1 "bmi+tcp").1
    ∧ BootStep.initLocalComm.usesGroupOrNetwork = true
    ∧ BootStep.discoverLocal.usesGroupOrNetwork = true := by
  refine ⟨?_, ?_, ?_, rfl, rfl⟩ <;> decide

/-- C4 (amended): with an inverted port range (or one below 1 or above
65535), `prepare_addr` aborts at its range check — which precedes the
port probing — and `nexus_bootstrap` consequently aborts without
creating the representative communicator and without attempting remote
discovery; the local-interface scan, local-communicator creation and
local discovery may however already have run. -/
theorem bootstrap_bad_port_range_aborts_before_remote
    (env : BootstrapEnv) (minport maxport : Int) (proto : String)
    (h : maxport < minport ∨ minport < 1 ∨ maxport > 65535) :
    prepare_addr env.prep minport maxport proto = none
    ∧ (nexus_bootstrap env minport maxport proto).2 = none
    ∧ BootStep.initRepComm ∉ (nexus_bootstrap env minport maxport proto).1
    ∧ BootStep.discoverRemote ∉ (nexus_bootstrap env minport maxport proto).1
    ∧ prepare_addr_events.indexOf PrepStep.rangeCheck
        < prepare_addr_events.indexOf PrepStep.probePorts := by
  have hprep : prepare_addr env.prep minport maxport proto = none := by
    have hcond : (maxport - minport < 0)
        ∨ (¬(maxport - minport < 0) ∧ minport < 1)
        ∨ (¬(maxport - minport < 0) ∧ ¬(minport < 1) ∧ maxport > 65535) := by
      omega
    unfold prepare_addr
    cases env.prep.matched_ip with
    | none => rfl
    | some ip =>
      rcases hcond with h0 | ⟨h0, h1⟩ | ⟨h0, h1, h2⟩
      · simp only [if_pos h0]
      · simp only [if_neg h0, if_pos h1]
      · simp only [if_neg h0, if_neg h1, if_pos h2]
  have hboot : nexus_bootstrap env minport maxport proto
        = ([BootStep.commRankSize, BootStep.initLocalComm], none)
      ∨ nexus_bootstrap env minport maxport proto
        = ([BootStep.commRankSize, BootStep.initLocalComm,
            BootStep.discoverLocal], none)
      ∨ nexus_bootstrap env minport maxport proto
        = ([BootStep.commRankSize, BootStep.initLocalComm,
            BootStep.discoverLocal, BootStep.prepareAddr], none) := by
    unfold nexus_bootstrap
    by_cases hc : env.local_comm_ok = true
    · rw [if_neg (by simp [hc])]
      cases hdl : discover_local_info env.local_resolve env.grank
          env.lrank env.local_hginfo
      · exact Or.inr (Or.inl rfl)
      · rw [hprep]
        exact Or.inr (Or.inr rfl)
    · rw [if_pos (by simp [hc])]
      exact Or.inl rfl
  refine ⟨hprep, ?_, ?_, ?_, by decide⟩ <;>
    rcases hboot with hb | hb | hb <;> rw [hb] <;> decide

/-- C10: every execution of `nexus_bootstrap` that returns to the
caller (does not abort) returns `NX_SUCCESS`, and `nexus_destroy`
always returns `NX_SUCCESS`; neither has a non-success return path. -/
theorem bootstrap_and_destroy_return_success :
    (∀ (env : BootstrapEnv) (minport maxport : Int) (proto : String)
        (r : nexus_ret),
      (nexus_bootstrap env minport maxport proto).2 = some r →
        r = nexus_ret.NX_SUCCESS)
    ∧ ∀ nctx : nexus_ctx,
        (nexus_destroy nctx).2 = nexus_ret.NX_SUCCESS := by
  constructor
  · intro env minport maxport proto r h
    unfold nexus_bootstrap at h
    split at h
    · exact absurd h (by simp)
    · split at h
      · exact absurd h (by simp)
      · split at h
        · exact absurd h (by simp)
        · split at h
          · exact absurd h (by simp)
          · split at h
            · exact absurd h (by simp)
            · simp only [Option.some.injEq] at h
              exact h.symm
  · intro nctx
    rfl

/-- Witness: C1's theorem applied to the concrete two-process local
group and two-representative group fixtures. -/
theorem discovery_visits_self_first_cyclic_witness :
    (visitOrder 0 hlocalW.length).head? = some 0
    ∧ visitOrder 0 hremW.length = (List.range hremW.length).rotate 0 :=
  ⟨((discovery_visits_self_first_cyclic envResOk 5 0 hlocalW (by decide)
      0 hremW (by decide)
      [{ key := 5, src := AddrSource.selfQuery, addr := 7 },
       { key := 6, src := AddrSource.lookupQuery "na+sm://102/0",
         addr := 8 }]
      [{ key := 5, src := AddrSource.selfQuery, addr := 7 },
       { key := 7,
         src := AddrSource.lookupQuery "bmi+tcp://10.0.0.2:5000",
         addr := 8 }]
      rfl rfl).1).2.1,
   ((discovery_visits_self_first_cyclic envResOk 5 0 hlocalW (by decide)
      0 hremW (by decide)
      [{ key := 5, src := AddrSource.selfQuery, addr := 7 },
       { key := 6, src := AddrSource.lookupQuery "na+sm://102/0",
         addr := 8 }]
      [{ key := 5, src := AddrSource.selfQuery, addr := 7 },
       { key := 7,
         src := AddrSource.lookupQuery "bmi+tcp://10.0.0.2:5000",
         addr := 8 }]
      rfl rfl).2).1⟩

/-- Witness: C2's theorem applied to the concrete two-process local
group (unique local rank 0 held by global rank 5). -/
theorem rankreps_total_and_lroot_consistent_witness :
    (build_rankreps (fun _ => 5) 2).length = 2
    ∧ computeLroot hlocalW 1 = some 5 :=
  ⟨(rankreps_total_and_lroot_consistent 2 (fun _ => 5) hlocalW 5
      (by decide)).1,
   (rankreps_total_and_lroot_consistent 2 (fun _ => 5) hlocalW 5
      (by decide)).2.2 1⟩

/-- Witness: C3's theorem applied to an environment whose network
lookups fail — both discovery loops abort. -/
theorem discovery_abort_on_resolution_failure_witness :
    discover_local_info envResFail 5 0 hlocalW = none
    ∧ discover_remote_info envResFail 5 0 hremW = none :=
  ⟨(discovery_abort_on_resolution_failure envResFail 5 0 hlocalW
      0 hremW).1
      ⟨ldata.toPeer { pid := 102, hgid := 0, grank := 6, lrank := 1 },
       by decide, rfl⟩,
   (discovery_abort_on_resolution_failure envResFail 5 0 hlocalW
      0 hremW).2.2.1
      ⟨rdata.toPeer { addr := "bmi+tcp://10.0.0.2:5000", grank := 7 },
       by decide, rfl⟩⟩

/-- Witness: C4's amended theorem applied to the inverted range
min_port = 2, max_port = 1. -/
theorem bootstrap_bad_port_range_witness :
    prepare_addr envBootOk.prep 2 1 "bmi+tcp" = none
    ∧ (nexus_bootstrap envBootOk 2 1 "bmi+tcp").2 = none :=
  ⟨(bootstrap_bad_port_range_aborts_before_remote envBootOk 2 1
      "bmi+tcp" (Or.inl (by omega))).1,
   (bootstrap_bad_port_range_aborts_before_remote envBootOk 2 1
      "bmi+tcp" (Or.inl (by omega))).2.1⟩

/-- Witness: C5's theorem applied to the four-rank routing context
(caller rank 1). -/
theorem next_hop_self_is_done_witness :
    nexus_next_hop nctxW nctxW.grank = (nexus_ret.NX_DONE, none) :=
  next_hop_self_is_done nctxW (by decide) (by decide)

/-- Witness: C6's theorem applied to the negative destination -1. -/
theorem next_hop_invalid_dest_rejected_witness :
    nexus_next_hop nctxW (-1) = (nexus_ret.NX_INVAL, none)
    ∧ (nexus_next_hop_st nctxW (-1)).2 = nctxW :=
  ⟨(next_hop_invalid_dest_rejected nctxW (-1) (Or.inl (by decide))).1,
   (next_hop_invalid_dest_rejected nctxW (-1) (Or.inl (by decide))).2.1⟩

/-- Witness: C8's theorem applied to a drain script with one completed
callback and to an iteration whose progress step fails fatally. -/
theorem bgthread_drain_then_progress_abort_on_error_witness :
    hg_trigger_drain
        [{ hret := hg_return.HG_SUCCESS, count := 1 },
         { hret := hg_return.HG_TIMEOUT, count := 0 }]
      = hg_trigger_drain [{ hret := hg_return.HG_TIMEOUT, count := 0 }]
    ∧ nexus_bgthread
        [{ triggers := [{ hret := hg_return.HG_TIMEOUT, count := 0 }],
           progress := hg_return.HG_OTHER_ERROR }] = none :=
  ⟨(bgthread_drain_then_progress_abort_on_error.1
      { hret := hg_return.HG_SUCCESS, count := 1 }
      { hret := hg_return.HG_TIMEOUT, count := 0 } []).1
      ⟨rfl, by decide⟩,
   (bgthread_drain_then_progress_abort_on_error.2.2.2.2.2.1
      [{ triggers := [{ hret := hg_return.HG_TIMEOUT, count := 0 }],
         progress := hg_return.HG_OTHER_ERROR }]).mpr
      ⟨{ triggers := [{ hret := hg_return.HG_TIMEOUT, count := 0 }],
         progress := hg_return.HG_OTHER_ERROR },
       by decide, Or.inr (by decide)⟩⟩

/-- Witness: C10's theorem applied to a fully succeeding bootstrap
environment with the valid port range 1-100, and to the four-rank
context for teardown. -/
theorem bootstrap_and_destroy_return_success_witness :
    nexus_ret.NX_SUCCESS = nexus_ret.NX_SUCCESS
    ∧ (nexus_destroy nctxW).2 = nexus_ret.NX_SUCCESS :=
  ⟨bootstrap_and_destroy_return_success.1 envBootOk 1 100 "bmi+tcp"
      nexus_ret.NX_SUCCESS rfl,
   bootstrap_and_destroy_return_success.2 nctxW⟩
